import Mathlib

/-!
Shallow embedding of `src/scrypted_bridge.py` (HomeMCPBridge): the device-state
mirror updated by Socket.IO events, the HTTP facade handlers, the snapshot
fetcher, and the startup structure of `main`.
-/

namespace ScryptedBridge

/-- JSON-like values held in device records (Python dict, list, str, number,
bool, None). Numbers are modelled as integers; timestamps as abstract ticks. -/
inductive Val : Type where
  | vNull : Val
  | vBool : Bool → Val
  | vNum : Int → Val
  | vStr : String → Val
  | vList : List Val → Val
  | vDict : List (String × Val) → Val

mutual

/-- Decidable equality for `Val` (the derive handler does not support the
nested occurrences of `List`). -/
def decEqVal : (a b : Val) → Decidable (a = b)
  | .vNull, .vNull => isTrue rfl
  | .vNull, .vBool _ => isFalse (fun h => Val.noConfusion h)
  | .vNull, .vNum _ => isFalse (fun h => Val.noConfusion h)
  | .vNull, .vStr _ => isFalse (fun h => Val.noConfusion h)
  | .vNull, .vList _ => isFalse (fun h => Val.noConfusion h)
  | .vNull, .vDict _ => isFalse (fun h => Val.noConfusion h)
  | .vBool _, .vNull => isFalse (fun h => Val.noConfusion h)
  | .vBool a, .vBool b =>
      if h : a = b then isTrue (by rw [h]) else isFalse (fun hh => by cases hh; exact h rfl)
  | .vBool _, .vNum _ => isFalse (fun h => Val.noConfusion h)
  | .vBool _, .vStr _ => isFalse (fun h => Val.noConfusion h)
  | .vBool _, .vList _ => isFalse (fun h => Val.noConfusion h)
  | .vBool _, .vDict _ => isFalse (fun h => Val.noConfusion h)
  | .vNum _, .vNull => isFalse (fun h => Val.noConfusion h)
  | .vNum _, .vBool _ => isFalse (fun h => Val.noConfusion h)
  | .vNum a, .vNum b =>
      if h : a = b then isTrue (by rw [h]) else isFalse (fun hh => by cases hh; exact h rfl)
  | .vNum _, .vStr _ => isFalse (fun h => Val.noConfusion h)
  | .vNum _, .vList _ => isFalse (fun h => Val.noConfusion h)
  | .vNum _, .vDict _ => isFalse (fun h => Val.noConfusion h)
  | .vStr _, .vNull => isFalse (fun h => Val.noConfusion h)
  | .vStr _, .vBool _ => isFalse (fun h => Val.noConfusion h)
  | .vStr _, .vNum _ => isFalse (fun h => Val.noConfusion h)
  | .vStr a, .vStr b =>
      if h : a = b then isTrue (by rw [h]) else isFalse (fun hh => by cases hh; exact h rfl)
  | .vStr _, .vList _ => isFalse (fun h => Val.noConfusion h)
  | .vStr _, .vDict _ => isFalse (fun h => Val.noConfusion h)
  | .vList _, .vNull => isFalse (fun h => Val.noConfusion h)
  | .vList _, .vBool _ => isFalse (fun h => Val.noConfusion h)
  | .vList _, .vNum _ => isFalse (fun h => Val.noConfusion h)
  | .vList _, .vStr _ => isFalse (fun h => Val.noConfusion h)
  | .vList a, .vList b =>
      match decEqValList a b with
      | isTrue h => isTrue (by rw [h])
      | isFalse h => isFalse (fun hh => by cases hh; exact h rfl)
  | .vList _, .vDict _ => isFalse (fun h => Val.noConfusion h)
  | .vDict _, .vNull => isFalse (fun h => Val.noConfusion h)
  | .vDict _, .vBool _ => isFalse (fun h => Val.noConfusion h)
  | .vDict _, .vNum _ => isFalse (fun h => Val.noConfusion h)
  | .vDict _, .vStr _ => isFalse (fun h => Val.noConfusion h)
  | .vDict _, .vList _ => isFalse (fun h => Val.noConfusion h)
  | .vDict a, .vDict b =>
      match decEqValDict a b with
      | isTrue h => isTrue (by rw [h])
      | isFalse h => isFalse (fun hh => by cases hh; exact h rfl)

/-- Decidable equality for lists of `Val`. -/
def decEqValList : (a b : List Val) → Decidable (a = b)
  | [], [] => isTrue rfl
  | [], _ :: _ => isFalse (fun h => List.noConfusion h)
  | _ :: _, [] => isFalse (fun h => List.noConfusion h)
  | x :: xs, y :: ys =>
      match decEqVal x y with
      | isFalse h1 => isFalse (fun hh => by cases hh; exact h1 rfl)
      | isTrue h1 =>
        match decEqValList xs ys with
        | isTrue h2 => isTrue (by rw [h1, h2])
        | isFalse h2 => isFalse (fun hh => by cases hh; exact h2 rfl)

/-- Decidable equality for string-keyed dicts of `Val`. -/
def decEqValDict : (a b : List (String × Val)) → Decidable (a = b)
  | [], [] => isTrue rfl
  | [], _ :: _ => isFalse (fun h => List.noConfusion h)
  | _ :: _, [] => isFalse (fun h => List.noConfusion h)
  | (k, x) :: xs, (k2, y) :: ys =>
      if hk : k = k2 then
        match decEqVal x y with
        | isFalse h1 => isFalse (fun hh => by cases hh; exact h1 rfl)
        | isTrue h1 =>
          match decEqValDict xs ys with
          | isTrue h2 => isTrue (by rw [hk, h1, h2])
          | isFalse h2 => isFalse (fun hh => by cases hh; exact h2 rfl)
      else isFalse (fun hh => by cases hh; exact hk rfl)

end

instance : DecidableEq Val := decEqVal

/-- Python dict lookup `d.get(k)` on an insertion-ordered association list. -/
def getKey? {κ α : Type} [DecidableEq κ] (k : κ) : List (κ × α) → Option α
  | [] => none
  | p :: rest => if p.1 = k then some p.2 else getKey? k rest

/-- Python dict assignment `d[k] = v`: update in place when the key is
present (keeping its position), append otherwise. -/
def setKey {κ α : Type} [DecidableEq κ] (k : κ) (v : α) : List (κ × α) → List (κ × α)
  | [] => [(k, v)]
  | p :: rest => if p.1 = k then (k, v) :: rest else p :: setKey k v rest

/-- In-place mutation of the value stored at key `k` (used for
`devices[device_id][property_name] = value`). -/
def updateKey {κ α : Type} [DecidableEq κ] (k : κ) (f : α → α) : List (κ × α) → List (κ × α)
  | [] => []
  | p :: rest => if p.1 = k then (p.1, f p.2) :: rest else p :: updateKey k f rest

/-- Python `k in d` for dicts. -/
def hasKey {κ α : Type} [DecidableEq κ] (k : κ) (l : List (κ × α)) : Bool :=
  (getKey? k l).isSome

/-- A device record: the attribute dict stored in `scrypted_state["devices"]`. -/
abbrev Record : Type := List (String × Val)

/-- The parts of the global `scrypted_state` that the event handlers and the
HTTP facade touch: the device dict, the `connected` flag, `last_update`. -/
structure BridgeState where
  devices : List (String × Record)
  connected : Bool
  lastUpdate : Int
deriving DecidableEq

/-- Initial `scrypted_state` at module load: `{"devices": {}, "connected": False,
..., "last_update": 0}`. -/
def initState : BridgeState :=
  { devices := [], connected := false, lastUpdate := 0 }

/-- The two Socket.IO push events the bridge handles. A `systemState` event
carries its raw payload (which may fail the `isinstance(data, dict)` check)
together with the value `time.time()` would return when it is processed. -/
inductive Event : Type where
  | systemState : Val → Int → Event
  | stateChange : String → String → Val → Event
deriving DecidableEq

/-- One entry of the `for device_id, device_info in data.items()` loop of
`on_system_state`: non-dict infos are skipped, otherwise
`device_info['id'] = device_id` then `devices[device_id] = device_info`. -/
def snapStoreStep (devs : List (String × Record)) (p : String × Val) :
    List (String × Record) :=
  match p.2 with
  | Val.vDict info => setKey p.1 (setKey "id" (Val.vStr p.1) info) devs
  | _ => devs

/-- Handler `on_system_state(data)`: when `data` is a dict, upsert every dict-valued
entry (with its `id` field set) and stamp `last_update`; otherwise no-op. -/
def on_system_state (data : Val) (t : Int) (st : BridgeState) : BridgeState :=
  match data with
  | Val.vDict entries =>
      { st with devices := entries.foldl snapStoreStep st.devices, lastUpdate := t }
  | _ => st

/-- Handler `on_state_change(device_id, property_name, value)`: when the id is a key
of the device dict, set that single property in place; otherwise no-op. -/
def on_state_change (deviceId propertyName : String) (v : Val)
    (st : BridgeState) : BridgeState :=
  if hasKey deviceId st.devices then
    { st with devices := updateKey deviceId (setKey propertyName v) st.devices }
  else st

/-- Dispatch one incoming event to its handler. -/
def applyEvent (st : BridgeState) : Event → BridgeState
  | Event.systemState data t => on_system_state data t st
  | Event.stateChange id prop v => on_state_change id prop v st

/-- Process a sequence of events in arrival order. -/
def applyEvents (events : List Event) (st : BridgeState) : BridgeState :=
  events.foldl applyEvent st

/-- An HTTP response from the facade: `send_json(data, status)` or
`send_binary(data)` (payload bytes, status 200). -/
inductive HResp : Type where
  | json : Val → Nat → HResp
  | binary : List Nat → HResp
deriving DecidableEq

/-- The 404 body of the device-state and snapshot endpoints. -/
def errNotFound : Val := Val.vDict [("error", Val.vStr "Device not found")]

/-- The 500 body sent when every snapshot URL pattern has been exhausted. -/
def errSnapshot : Val := Val.vDict [("error", Val.vStr "Could not fetch snapshot")]

/-- The records of the device dict in insertion order:
`list(scrypted_state["devices"].values())`. -/
def recordsOf (st : BridgeState) : List Record :=
  st.devices.map Prod.snd

/-- Endpoint `GET /status`. -/
def handle_status (st : BridgeState) : HResp :=
  HResp.json (Val.vDict
    [("connected", Val.vBool st.connected),
     ("device_count", Val.vNum (Int.ofNat st.devices.length)),
     ("last_update", Val.vNum st.lastUpdate)]) 200

/-- Endpoint `GET /devices`. -/
def handle_devices (st : BridgeState) : HResp :=
  HResp.json (Val.vDict
    [("devices", Val.vList ((recordsOf st).map Val.vDict)),
     ("count", Val.vNum (Int.ofNat (recordsOf st).length))]) 200

/-- Whether `needle` occurs as a contiguous subsequence of `hay`. -/
def subSeq (needle : List Char) : List Char → Bool
  | [] => needle.isEmpty
  | c :: rest => needle.isPrefixOf (c :: rest) || subSeq needle rest

/-- Python `needle in container` for the container shapes that occur as
`interfaces` values: element test for lists, key test for dicts, substring
test for strings; `none` models the `TypeError` raised on other types. -/
def pyContains (needle : String) : Val → Option Bool
  | Val.vList l => some (l.contains (Val.vStr needle))
  | Val.vDict l => some (hasKey needle l)
  | Val.vStr s => some (subSeq needle.toList s.toList)
  | _ => none

/-- The camera filter of `GET /cameras`:
`'Camera' in d.get('interfaces', []) or 'VideoCamera' in d.get('interfaces', [])`,
with Python `or` short-circuiting. `none` models a raised `TypeError`. -/
def camTest (r : Record) : Option Bool :=
  let c := (getKey? "interfaces" r).getD (Val.vList [])
  match pyContains "Camera" c with
  | none => none
  | some true => some true
  | some false => pyContains "VideoCamera" c

/-- The list comprehension of `GET /cameras`, evaluated left to right;
`none` when some record's membership test raises. -/
def filterCameras : List Record → Option (List Record)
  | [] => some []
  | r :: rest =>
      match camTest r with
      | none => none
      | some b => (filterCameras rest).map (fun l => if b then r :: l else l)

/-- Endpoint `GET /cameras`; `none` when the handler raises instead of responding. -/
def handle_cameras (st : BridgeState) : Option HResp :=
  (filterCameras (recordsOf st)).map (fun cams =>
    HResp.json (Val.vDict
      [("cameras", Val.vList (cams.map Val.vDict)),
       ("count", Val.vNum (Int.ofNat cams.length))]) 200)

/-- Endpoint `GET /device/{id}/state`: `devices.get(device_id)` then a truthiness
test (`if device:`), so a missing id — or an empty record — yields the 404. -/
def handle_device_state (deviceId : String) (st : BridgeState) : HResp :=
  match getKey? deviceId st.devices with
  | some r => if r.isEmpty then HResp.json errNotFound 404 else HResp.json (Val.vDict r) 200
  | none => HResp.json errNotFound 404

/-- The snapshot loop of `GET /device/{id}/snapshot`, abstracted over the
outcome of each URL pattern's `fetch_with_cookie` call (`none` = the call
raised; `some data` = the returned bytes). A payload is accepted when
`data and len(data) > 100`; otherwise the next pattern is tried, and an
exhausted list yields the 500 JSON error. -/
def fetchSnapshot : List (Option (List Nat)) → HResp
  | [] => HResp.json errSnapshot 500
  | none :: rest => fetchSnapshot rest
  | some data :: rest =>
      if !data.isEmpty && decide (100 < data.length) then HResp.binary data
      else fetchSnapshot rest

/-- Spec-side reading of the snapshot loop: the payload of the first URL
pattern whose fetch succeeds with a payload above the plausibility
threshold, if any. -/
def firstPlausible (results : List (Option (List Nat))) : Option (List Nat) :=
  results.findSome? (fun r => r.bind (fun d => if 100 < d.length then some d else none))

/-- Spec-side per-device fold of one snapshot-payload entry: an entry for
this id whose info is a mapping installs that mapping with its `id` field
set; every other entry leaves the accumulator alone. -/
def snapRecordStep (deviceId : String) (acc : Option Record) (p : String × Val) :
    Option Record :=
  match p.2 with
  | Val.vDict info =>
      if p.1 = deviceId then some (setKey "id" (Val.vStr deviceId) info) else acc
  | _ => acc

/-- Spec-side per-device fold of one event, following the specification's
description: a full snapshot installs the entry's attribute mapping (id
field set); an incremental event for this device overwrites exactly the one
property when a record exists. -/
def recordStep (deviceId : String) (acc : Option Record) : Event → Option Record
  | Event.systemState (Val.vDict entries) _ => entries.foldl (snapRecordStep deviceId) acc
  | Event.systemState _ _ => acc
  | Event.stateChange d prop v =>
      if d = deviceId then acc.map (setKey prop v) else acc

/-- Spec-side record of a device after folding a whole event sequence from
the empty store. -/
def recordOf (deviceId : String) (events : List Event) : Option Record :=
  events.foldl (recordStep deviceId) none

/-- The id-field invariant of the spec: the `id` field inside every stored
record equals its key in the store. -/
def idInv (devs : List (String × Record)) : Prop :=
  ∀ k r, getKey? k devs = some r → getKey? "id" r = some (Val.vStr k)

/-- Every stored record has an `id` key (hence is non-empty): this is what
makes the truthiness test `if device:` agree with a key-presence test. -/
def recNonempty (devs : List (String × Record)) : Prop :=
  ∀ k r, getKey? k devs = some r → hasKey "id" r = true

/-- The facts about the runtime environment that decide which path the
process takes: whether `login_to_scrypted` succeeds, whether the `socketio`
module imported, and whether the Socket.IO connect/keepalive code ever
raises. -/
structure ProcEnv where
  loginOk : Bool
  hasSocketIO : Bool
  socketFails : Bool
deriving DecidableEq

/-- Observable milestones of the process, in execution order. -/
inductive PStep : Type where
  | startHttpServer : PStep
  | loginAttempt : Bool → PStep
  | restOnlyMode : PStep
  | socketSession : Bool → PStep
deriving DecidableEq

/-- Trace of `connect_socketio`: login (returning early on failure), the
REST-only fallback, then the Socket.IO session whose surrounding
`try/except` catches any error, logs it and falls off the end of the
coroutine. The boolean is true when the coroutine returns (after which
`asyncio.run` and `main` return and the daemon HTTP thread dies with the
process), false when the keepalive loop runs forever. -/
def connectSteps (env : ProcEnv) : List PStep × Bool :=
  if env.loginOk = false then ([PStep.loginAttempt false], true)
  else if env.hasSocketIO = false then
    ([PStep.loginAttempt true, PStep.restOnlyMode], true)
  else if env.socketFails then
    ([PStep.loginAttempt true, PStep.socketSession true], true)
  else ([PStep.loginAttempt true, PStep.socketSession false], false)

/-- Trace of `main` in full mode: start the HTTP server thread first, then run
`connect_socketio`; the process terminates exactly when that coroutine
returns. -/
def mainSteps (env : ProcEnv) : List PStep × Bool :=
  (PStep.startHttpServer :: (connectSteps env).1, (connectSteps env).2)

/-- The device dict with Python's object identity made explicit: `refs` maps
each device id to the reference of its record object, `heap` maps references
to record contents. `list(devices.values())` copies the list of references,
not the records. -/
structure RefStore where
  refs : List (String × Nat)
  heap : List (Nat × Record)
deriving DecidableEq

/-- Model of `list(scrypted_state["devices"].values())`: a fresh list holding the
same record references. -/
def listRefs (s : RefStore) : List Nat :=
  s.refs.map Prod.snd

/-- What a holder of the returned list observes when reading its records. -/
def derefAll (s : RefStore) (rs : List Nat) : List (Option Record) :=
  rs.map (fun r => getKey? r s.heap)

/-- Handler `on_state_change` on the identity-aware store: mutate the record object
in place through its reference; the `refs` table is untouched. -/
def applyPropertyRef (deviceId propertyName : String) (v : Val)
    (s : RefStore) : RefStore :=
  match getKey? deviceId s.refs with
  | some r => { s with heap := updateKey r (setKey propertyName v) s.heap }
  | none => s

theorem getKey?_setKey {κ α : Type} [DecidableEq κ] (i k : κ) (v : α)
    (l : List (κ × α)) :
    getKey? i (setKey k v l) = if k = i then some v else getKey? i l := by
  induction l with
  | nil => simp [setKey, getKey?]
  | cons p rest ih =>
      by_cases h : p.1 = k
      · simp only [setKey, h, if_pos rfl, getKey?]
        by_cases hik : k = i
        · simp [hik]
        · simp [hik, h]
      · simp only [setKey, if_neg h, getKey?]
        by_cases hpi : p.1 = i
        · have hki : ¬ k = i := fun hk => h (hk ▸ hpi)
          simp [hpi, hki]
        · simp [hpi, ih]

theorem getKey?_updateKey {κ α : Type} [DecidableEq κ] (i k : κ) (f : α → α)
    (l : List (κ × α)) :
    getKey? i (updateKey k f l) =
      if k = i then (getKey? i l).map f else getKey? i l := by
  induction l with
  | nil => simp [updateKey, getKey?]
  | cons p rest ih =>
      by_cases h : p.1 = k
      · simp only [updateKey, h, if_pos rfl, getKey?]
        by_cases hik : k = i
        · simp [hik, h]
        · simp [hik, h, hik]
      · simp only [updateKey, if_neg h, getKey?]
        by_cases hpi : p.1 = i
        · have hki : ¬ k = i := fun hk => h (hk ▸ hpi)
          simp [hpi, hki]
        · simp [hpi, ih]

theorem getKey?_snapFold (deviceId : String) (entries : List (String × Val))
    (devs : List (String × Record)) :
    getKey? deviceId (entries.foldl snapStoreStep devs) =
      entries.foldl (snapRecordStep deviceId) (getKey? deviceId devs) := by
  induction entries generalizing devs with
  | nil => rfl
  | cons p rest ih =>
      have hstep : getKey? deviceId (snapStoreStep devs p) =
          snapRecordStep deviceId (getKey? deviceId devs) p := by
        cases hv : p.2 with
        | vDict info =>
            simp only [snapStoreStep, snapRecordStep, hv, getKey?_setKey]
            by_cases hid : p.1 = deviceId
            · simp [hid]
            · simp [hid]
        | vNull => simp [snapStoreStep, snapRecordStep, hv]
        | vBool b => simp [snapStoreStep, snapRecordStep, hv]
        | vNum n => simp [snapStoreStep, snapRecordStep, hv]
        | vStr s => simp [snapStoreStep, snapRecordStep, hv]
        | vList l => simp [snapStoreStep, snapRecordStep, hv]
      simp only [List.foldl_cons, ih, hstep]

theorem getKey?_applyEvent (deviceId : String) (st : BridgeState) (e : Event) :
    getKey? deviceId (applyEvent st e).devices =
      recordStep deviceId (getKey? deviceId st.devices) e := by
  cases e with
  | systemState data t =>
      cases data with
      | vDict entries =>
          simp [applyEvent, on_system_state, recordStep, getKey?_snapFold]
      | vNull => simp [applyEvent, on_system_state, recordStep]
      | vBool b => simp [applyEvent, on_system_state, recordStep]
      | vNum n => simp [applyEvent, on_system_state, recordStep]
      | vStr s => simp [applyEvent, on_system_state, recordStep]
      | vList l => simp [applyEvent, on_system_state, recordStep]
  | stateChange d prop v =>
      by_cases hk : hasKey d st.devices = true
      · simp [applyEvent, on_state_change, hk, recordStep, getKey?_updateKey]
      · have hnone : getKey? d st.devices = none := by
          cases hgd : getKey? d st.devices with
          | none => rfl
          | some r => exact absurd (by simp [hasKey, hgd]) hk
        rw [Bool.not_eq_true] at hk
        simp only [applyEvent, on_state_change, hk, Bool.false_eq_true, if_false,
          recordStep]
        by_cases hd : d = deviceId
        · subst hd
          simp [hnone]
        · simp [hd]

theorem getKey?_applyEvents (deviceId : String) (events : List Event)
    (st : BridgeState) :
    getKey? deviceId (applyEvents events st).devices =
      events.foldl (recordStep deviceId) (getKey? deviceId st.devices) := by
  induction events generalizing st with
  | nil => rfl
  | cons e rest ih =>
      simp only [applyEvents, List.foldl_cons]
      rw [show List.foldl applyEvent (applyEvent st e) rest =
            applyEvents rest (applyEvent st e) from rfl,
          ih, getKey?_applyEvent]

/-- C1: For every sequence of full-snapshot and incremental events applied
to the initially empty device store, the record finally held for any device
id equals the per-device fold of the events in arrival order: a snapshot
entry for the id installs that entry's attribute mapping with its `id`
field set, and an incremental event (id, property, value) overwrites
exactly that one property of the existing record. -/
theorem store_record_is_event_fold (events : List Event) (deviceId : String) :
    getKey? deviceId (applyEvents events initState).devices =
      recordOf deviceId events := by
  rw [recordOf, getKey?_applyEvents]
  rfl

/-- C2: An incremental change event whose device id is not a key of the
store leaves the entire bridge state unchanged: no record is created and no
existing record is modified. -/
theorem state_change_unknown_id_noop (st : BridgeState)
    (deviceId propertyName : String) (v : Val)
    (h : hasKey deviceId st.devices = false) :
    on_state_change deviceId propertyName v st = st := by
  simp [on_state_change, h]

theorem state_change_unknown_id_noop_witness :
    hasKey "b" ([("a", [("id", Val.vStr "a")])] :
        List (String × Record)) = false ∧
    on_state_change "b" "on" (Val.vBool true)
        { devices := [("a", [("id", Val.vStr "a")])], connected := true,
          lastUpdate := 3 } =
      { devices := [("a", [("id", Val.vStr "a")])], connected := true,
        lastUpdate := 3 } :=
  ⟨by decide,
   state_change_unknown_id_noop
     { devices := [("a", [("id", Val.vStr "a")])], connected := true,
       lastUpdate := 3 } "b" "on" (Val.vBool true) (by decide)⟩

/-- A store whose records all pass the entrywise id-field check satisfies
the id-field invariant. -/
theorem idInv_of_entries (devs : List (String × Record))
    (h : ∀ p ∈ devs, getKey? "id" p.2 = some (Val.vStr p.1)) : idInv devs := by
  intro k r hk
  induction devs with
  | nil => exact absurd hk (by simp [getKey?])
  | cons p rest ih =>
      simp only [getKey?] at hk
      by_cases hp : p.1 = k
      · rw [if_pos hp] at hk
        cases hk
        exact hp ▸ h p (by simp)
      · rw [if_neg hp] at hk
        exact ih (fun q hq => h q (by simp [hq])) hk

/-- C3 counterexample: the id-field invariant is not preserved by the
incremental-change handler. The store holding `d1 ↦ {"id": "d1"}` satisfies
the invariant, but after the event `stateChange("d1", "id", "x")` the
record's `id` field is `"x"` while its key is still `d1`. -/
theorem id_invariant_not_preserved :
    idInv [("d1", [("id", Val.vStr "d1")])] ∧
    ¬ idInv (on_state_change "d1" "id" (Val.vStr "x")
        { devices := [("d1", [("id", Val.vStr "d1")])], connected := true,
          lastUpdate := 0 }).devices := by
  constructor
  · exact idInv_of_entries _ (by intro p hp; simp at hp; subst hp; rfl)
  · intro hinv
    have h := hinv "d1" [("id", Val.vStr "x")] (by decide)
    exact absurd h (by decide)

/-- C3 amended: the id-field invariant (`id` field inside each stored
record equals its key) is preserved by the full-snapshot handler
unconditionally, and by the incremental-change handler whenever the event's
property name is not itself `"id"`. -/
theorem id_invariant_preserved (st : BridgeState) (e : Event)
    (hp : ∀ d p v, e = Event.stateChange d p v → p ≠ "id")
    (hinv : idInv st.devices) : idInv (applyEvent st e).devices := by
  cases e with
  | systemState data t =>
      cases data with
      | vDict entries =>
          simp only [applyEvent, on_system_state]
          clear hp
          induction entries generalizing st with
          | nil => exact hinv
          | cons q rest ih =>
              have hstep : idInv (snapStoreStep st.devices q) := by
                cases hv : q.2 with
                | vDict info =>
                    intro k r hk
                    rw [snapStoreStep, hv] at hk
                    rw [getKey?_setKey] at hk
                    by_cases hq : q.1 = k
                    · rw [if_pos hq] at hk
                      cases hk
                      rw [getKey?_setKey, if_pos rfl, hq]
                    · rw [if_neg hq] at hk
                      exact hinv k r hk
                | vNull => rw [snapStoreStep, hv]; exact hinv
                | vBool b => rw [snapStoreStep, hv]; exact hinv
                | vNum n => rw [snapStoreStep, hv]; exact hinv
                | vStr s => rw [snapStoreStep, hv]; exact hinv
                | vList l => rw [snapStoreStep, hv]; exact hinv
              have := ih { st with devices := snapStoreStep st.devices q } hstep
              simpa [List.foldl_cons] using this
      | vNull => exact hinv
      | vBool b => exact hinv
      | vNum n => exact hinv
      | vStr s => exact hinv
      | vList l => exact hinv
  | stateChange d prop v =>
      have hprop : prop ≠ "id" := hp d prop v rfl
      simp only [applyEvent, on_state_change]
      by_cases hk : hasKey d st.devices = true
      · simp only [hk, if_true]
        intro k r hr
        rw [getKey?_updateKey] at hr
        by_cases hd : d = k
        · rw [if_pos hd] at hr
          cases hg : getKey? k st.devices with
          | none => rw [hg] at hr; exact absurd hr (by simp)
          | some r0 =>
              rw [hg] at hr
              cases hr
              rw [getKey?_setKey, if_neg hprop]
              exact hinv k r0 hg
        · rw [if_neg hd] at hr
          exact hinv k r hr
      · rw [Bool.not_eq_true] at hk
        simp only [hk, Bool.false_eq_true, if_false]
        exact hinv

theorem id_invariant_preserved_witness :
    idInv (applyEvent
      { devices := [("d1", [("id", Val.vStr "d1")])], connected := true,
        lastUpdate := 0 }
      (Event.stateChange "d1" "on" (Val.vBool false))).devices :=
  id_invariant_preserved
    { devices := [("d1", [("id", Val.vStr "d1")])], connected := true,
      lastUpdate := 0 }
    (Event.stateChange "d1" "on" (Val.vBool false))
    (by intro d p v h; cases h; decide)
    (idInv_of_entries _ (by intro p hp; simp at hp; subst hp; rfl))

theorem hasKey_setKey_true {κ α : Type} [DecidableEq κ] (i k : κ) (v : α)
    (l : List (κ × α)) (h : hasKey i l = true) : hasKey i (setKey k v l) = true := by
  rw [hasKey, getKey?_setKey]
  by_cases hk : k = i
  · simp [hk]
  · rw [if_neg hk]
    exact h

theorem recordStep_keeps_id (deviceId : String) (acc : Option Record) (e : Event)
    (h : ∀ r, acc = some r → hasKey "id" r = true) :
    ∀ r, recordStep deviceId acc e = some r → hasKey "id" r = true := by
  cases e with
  | systemState data t =>
      cases data with
      | vDict entries =>
          simp only [recordStep]
          induction entries generalizing acc with
          | nil => exact h
          | cons p rest ih =>
              refine fun r hr => ih (snapRecordStep deviceId acc p) ?_ r (by simpa using hr)
              intro r0 hr0
              cases hv : p.2 with
              | vDict info =>
                  simp only [snapRecordStep, hv] at hr0
                  by_cases hp : p.1 = deviceId
                  · rw [if_pos hp] at hr0
                    cases hr0
                    rw [hasKey, getKey?_setKey, if_pos rfl]
                    rfl
                  · rw [if_neg hp] at hr0
                    exact h r0 hr0
              | vNull => simp only [snapRecordStep, hv] at hr0; exact h r0 hr0
              | vBool b => simp only [snapRecordStep, hv] at hr0; exact h r0 hr0
              | vNum n => simp only [snapRecordStep, hv] at hr0; exact h r0 hr0
              | vStr s => simp only [snapRecordStep, hv] at hr0; exact h r0 hr0
              | vList l => simp only [snapRecordStep, hv] at hr0; exact h r0 hr0
      | vNull => exact h
      | vBool b => exact h
      | vNum n => exact h
      | vStr s => exact h
      | vList l => exact h
  | stateChange d prop v =>
      intro r hr
      rw [recordStep] at hr
      by_cases hd : d = deviceId
      · rw [if_pos hd] at hr
        cases hacc : acc with
        | none => rw [hacc] at hr; exact absurd hr (by simp)
        | some r0 =>
            rw [hacc] at hr
            cases hr
            exact hasKey_setKey_true "id" prop v r0 (h r0 hacc)
      · rw [if_neg hd] at hr
        exact h r hr

theorem reachable_record_has_id (events : List Event) (deviceId : String)
    (r : Record)
    (h : getKey? deviceId (applyEvents events initState).devices = some r) :
    hasKey "id" r = true := by
  rw [getKey?_applyEvents] at h
  have hgen : ∀ (es : List Event) (acc : Option Record),
      (∀ r0, acc = some r0 → hasKey "id" r0 = true) →
      ∀ r0, es.foldl (recordStep deviceId) acc = some r0 → hasKey "id" r0 = true := by
    intro es
    induction es with
    | nil => intro acc hacc r0 hr0; exact hacc r0 hr0
    | cons e rest ih =>
        intro acc hacc r0 hr0
        exact ih (recordStep deviceId acc e)
          (recordStep_keeps_id deviceId acc e hacc) r0 (by simpa using hr0)
  exact hgen events (getKey? deviceId initState.devices)
    (by intro r0 hr0; exact absurd hr0 (by simp [initState, getKey?])) r h

/-- C7: On every store reachable from the empty store by event processing,
`GET /device/{id}/state` answers 404 with `{"error": "Device not found"}`
exactly for ids that are not keys of the device dict, and answers 200 with
the stored record for ids that are keys. -/
theorem device_state_endpoint (events : List Event) (deviceId : String) :
    (getKey? deviceId (applyEvents events initState).devices = none →
        handle_device_state deviceId (applyEvents events initState) =
          HResp.json errNotFound 404) ∧
    (∀ r, getKey? deviceId (applyEvents events initState).devices = some r →
        handle_device_state deviceId (applyEvents events initState) =
          HResp.json (Val.vDict r) 200) := by
  constructor
  · intro h
    simp [handle_device_state, h]
  · intro r h
    have hid := reachable_record_has_id events deviceId r h
    cases r with
    | nil => exact absurd hid (by decide)
    | cons p rest => simp [handle_device_state, h, List.isEmpty]

theorem device_state_endpoint_witness :
    handle_device_state "nope"
        (applyEvents
          [Event.systemState (Val.vDict [("cam1", Val.vDict [("on", Val.vBool true)])]) 5]
          initState) = HResp.json errNotFound 404 ∧
    handle_device_state "cam1"
        (applyEvents
          [Event.systemState (Val.vDict [("cam1", Val.vDict [("on", Val.vBool true)])]) 5]
          initState) =
      HResp.json (Val.vDict [("on", Val.vBool true), ("id", Val.vStr "cam1")]) 200 :=
  ⟨(device_state_endpoint
      [Event.systemState (Val.vDict [("cam1", Val.vDict [("on", Val.vBool true)])]) 5]
      "nope").1 (by decide),
   (device_state_endpoint
      [Event.systemState (Val.vDict [("cam1", Val.vDict [("on", Val.vBool true)])]) 5]
      "cam1").2 [("on", Val.vBool true), ("id", Val.vStr "cam1")] (by decide)⟩

/-- C4: The snapshot loop returns the payload of the first URL pattern that
fetches successfully with a payload above the plausibility threshold, and
the 500-style JSON error once the pattern list is exhausted; in particular,
a 10-byte first payload is skipped in favour of a 50000-byte second one. -/
theorem fetch_first_plausible_payload :
    (∀ results : List (Option (List Nat)),
        fetchSnapshot results =
          (match firstPlausible results with
           | some d => HResp.binary d
           | none => HResp.json errSnapshot 500)) ∧
    fetchSnapshot [some (List.replicate 10 0), some (List.replicate 50000 1)] =
      HResp.binary (List.replicate 50000 1) := by
  have hgen : ∀ results : List (Option (List Nat)),
      fetchSnapshot results =
        (match firstPlausible results with
         | some d => HResp.binary d
         | none => HResp.json errSnapshot 500) := by
    intro results
    induction results with
    | nil => simp [fetchSnapshot, firstPlausible]
    | cons r rest ih =>
        cases r with
        | none =>
            rw [show fetchSnapshot (none :: rest) = fetchSnapshot rest from rfl, ih]
            simp [firstPlausible, List.findSome?_cons]
        | some data =>
            by_cases hlen : 100 < data.length
            · have hne : data.isEmpty = false := by
                cases data with
                | nil => simp at hlen
                | cons a as => rfl
              have hcond : (!data.isEmpty && decide (100 < data.length)) = true := by
                simp [hne, hlen]
              rw [fetchSnapshot, if_pos hcond]
              simp [firstPlausible, List.findSome?_cons, hlen]
            · have hcond : (!data.isEmpty && decide (100 < data.length)) = false := by
                simp [hlen]
              rw [fetchSnapshot, if_neg (by simp [hcond]), ih]
              simp [firstPlausible, List.findSome?_cons, hlen]
  have hcons : ∀ (a : List Nat) (l : List (Option (List Nat))),
      firstPlausible (some a :: l) =
        if 100 < a.length then some a else firstPlausible l := by
    intro a l
    by_cases h : 100 < a.length
    · simp [firstPlausible, List.findSome?_cons, h]
    · simp [firstPlausible, List.findSome?_cons, h]
  refine ⟨hgen, ?_⟩
  rw [hgen]
  have h1 : firstPlausible
      [some (List.replicate 10 (0 : Nat)), some (List.replicate 50000 (1 : Nat))] =
      some (List.replicate 50000 1) := by
    rw [hcons, if_neg (by rw [List.length_replicate]; decide),
        hcons, if_pos (by rw [List.length_replicate]; decide)]
  rw [h1]

theorem filterCameras_eq_filter (l : List Record) (cams : List Record)
    (h : filterCameras l = some cams) :
    cams = l.filter (fun r => (camTest r).getD false) := by
  induction l generalizing cams with
  | nil =>
      simp only [filterCameras] at h
      cases h
      rfl
  | cons r rest ih =>
      simp only [filterCameras] at h
      cases hc : camTest r with
      | none => rw [hc] at h; exact absurd h (by simp)
      | some b =>
          rw [hc] at h
          cases hrest : filterCameras rest with
          | none => rw [hrest] at h; exact absurd h (by simp)
          | some c2 =>
              rw [hrest] at h
              simp only [Option.map] at h
              cases h
              rw [List.filter_cons]
              have hgd : (camTest r).getD false = b := by rw [hc]; rfl
              rw [hgd, ih c2 hrest]

/-- C8: Whenever the `GET /cameras` handler produces a response, its device
list is exactly the sublist of the `GET /devices` list passing the
camera-interface test, each endpoint's count equals the length of the list
it reports, and the camera count never exceeds the device count. -/
theorem cameras_are_filtered_devices (st : BridgeState) (cams : List Record)
    (h : filterCameras (recordsOf st) = some cams) :
    cams = (recordsOf st).filter (fun r => (camTest r).getD false) ∧
    handle_cameras st = some (HResp.json (Val.vDict
      [("cameras", Val.vList (cams.map Val.vDict)),
       ("count", Val.vNum (Int.ofNat cams.length))]) 200) ∧
    handle_devices st = HResp.json (Val.vDict
      [("devices", Val.vList ((recordsOf st).map Val.vDict)),
       ("count", Val.vNum (Int.ofNat (recordsOf st).length))]) 200 ∧
    cams.length ≤ (recordsOf st).length := by
  refine ⟨filterCameras_eq_filter _ _ h, by simp [handle_cameras, h], rfl, ?_⟩
  rw [filterCameras_eq_filter _ _ h]
  exact List.length_filter_le _ _

theorem cameras_are_filtered_devices_witness :
    handle_cameras
      { devices :=
          [("c1", [("interfaces", Val.vList [Val.vStr "Camera"]), ("id", Val.vStr "c1")]),
           ("d2", [("id", Val.vStr "d2")])],
        connected := true, lastUpdate := 1 } =
      some (HResp.json (Val.vDict
        [("cameras", Val.vList
            [Val.vDict [("interfaces", Val.vList [Val.vStr "Camera"]), ("id", Val.vStr "c1")]]),
         ("count", Val.vNum (Int.ofNat 1))]) 200) ∧
    (1 : Nat) ≤ 2 :=
  ⟨((cameras_are_filtered_devices
      { devices :=
          [("c1", [("interfaces", Val.vList [Val.vStr "Camera"]), ("id", Val.vStr "c1")]),
           ("d2", [("id", Val.vStr "d2")])],
        connected := true, lastUpdate := 1 }
      [[("interfaces", Val.vList [Val.vStr "Camera"]), ("id", Val.vStr "c1")]]
      (by decide)).2).1,
   ((cameras_are_filtered_devices
      { devices :=
          [("c1", [("interfaces", Val.vList [Val.vStr "Camera"]), ("id", Val.vStr "c1")]),
           ("d2", [("id", Val.vStr "d2")])],
        connected := true, lastUpdate := 1 }
      [[("interfaces", Val.vList [Val.vStr "Camera"]), ("id", Val.vStr "c1")]]
      (by decide)).2).2.2⟩

/-- C9 counterexample: `list(devices.values())` copies only the list of
record references, and a single subsequent `on_state_change` to a listed
device is visible through the returned collection, so the returned
collection does change after the call returns. -/
theorem list_view_changes_after_update :
    listRefs
      { refs := [("d1", 0)],
        heap := [(0, [("id", Val.vStr "d1"), ("on", Val.vBool true)])] } = [0] ∧
    derefAll
        (applyPropertyRef "d1" "on" (Val.vBool false)
          { refs := [("d1", 0)],
            heap := [(0, [("id", Val.vStr "d1"), ("on", Val.vBool true)])] })
        [0] ≠
      derefAll
        { refs := [("d1", 0)],
          heap := [(0, [("id", Val.vStr "d1"), ("on", Val.vBool true)])] }
        [0] := by
  decide

/-- C9 amended: the list of record references returned by the listing is
fixed at call time — a later single-property update never changes which
references it holds — but the records themselves are aliased, so that
update is visible when the returned collection is read again. -/
theorem list_refs_stable_records_aliased :
    (∀ (s : RefStore) (deviceId propertyName : String) (v : Val),
        listRefs (applyPropertyRef deviceId propertyName v s) = listRefs s) ∧
    derefAll
        (applyPropertyRef "d1" "on" (Val.vBool false)
          { refs := [("d1", 0)],
            heap := [(0, [("id", Val.vStr "d1"), ("on", Val.vBool true)])] })
        (listRefs
          { refs := [("d1", 0)],
            heap := [(0, [("id", Val.vStr "d1"), ("on", Val.vBool true)])] }) ≠
      derefAll
        { refs := [("d1", 0)],
          heap := [(0, [("id", Val.vStr "d1"), ("on", Val.vBool true)])] }
        (listRefs
          { refs := [("d1", 0)],
            heap := [(0, [("id", Val.vStr "d1"), ("on", Val.vBool true)])] }) := by
  constructor
  · intro s deviceId propertyName v
    cases hg : getKey? deviceId s.refs with
    | none => simp [applyPropertyRef, hg]
    | some r => simp [applyPropertyRef, hg, listRefs]
  · decide

/-- C5 counterexample: with a failing login and everything else healthy,
the process does terminate, but the HTTP-server thread has already been
started — `main` launches the listener before `connect_socketio` attempts
the login — refuting "exits without starting the HTTP listener". -/
theorem http_started_despite_failed_login :
    (mainSteps { loginOk := false, hasSocketIO := true, socketFails := false }).2
        = true ∧
    (mainSteps { loginOk := false, hasSocketIO := true, socketFails := false }).1
        = [PStep.startHttpServer, PStep.loginAttempt false] := by
  decide

/-- C5 amended: when the login exchange fails, `connect_socketio` reports
the error and returns, so the process exits; however, the HTTP listener is
started before the login attempt (and dies with the process), rather than
never being started. -/
theorem failed_login_exits_after_http_start (env : ProcEnv)
    (h : env.loginOk = false) :
    (mainSteps env).2 = true ∧
    (mainSteps env).1 = [PStep.startHttpServer, PStep.loginAttempt false] := by
  constructor
  · simp [mainSteps, connectSteps, h]
  · simp [mainSteps, connectSteps, h]

theorem failed_login_exits_after_http_start_witness :
    (mainSteps { loginOk := false, hasSocketIO := true, socketFails := false }).2
        = true ∧
    (mainSteps { loginOk := false, hasSocketIO := true, socketFails := false }).1
        = [PStep.startHttpServer, PStep.loginAttempt false] :=
  failed_login_exits_after_http_start
    { loginOk := false, hasSocketIO := true, socketFails := false } rfl

/-- C6 counterexample: a Socket.IO failure after a successful login does
terminate the process — the `except` clause only logs, `connect_socketio`
returns, `asyncio.run` and `main` finish, and the daemon HTTP thread dies
with them — refuting "never terminates the process". -/
theorem socket_failure_terminates_process :
    (mainSteps { loginOk := true, hasSocketIO := true, socketFails := true }).2
        = true ∧
    PStep.socketSession true ∈
      (mainSteps { loginOk := true, hasSocketIO := true, socketFails := true }).1 := by
  decide

/-- C6 amended: a transport or Socket.IO failure is caught and logged by
`connect_socketio`, which then returns; since the HTTP server runs on a
daemon thread, the process terminates instead of continuing to serve the
cached store. -/
theorem socket_failure_ends_process (env : ProcEnv)
    (h1 : env.loginOk = true) (h2 : env.hasSocketIO = true)
    (h3 : env.socketFails = true) :
    (mainSteps env).2 = true ∧
    (mainSteps env).1 =
      [PStep.startHttpServer, PStep.loginAttempt true, PStep.socketSession true] := by
  constructor
  · simp [mainSteps, connectSteps, h1, h2, h3]
  · simp [mainSteps, connectSteps, h1, h2, h3]

theorem socket_failure_ends_process_witness :
    (mainSteps { loginOk := true, hasSocketIO := true, socketFails := true }).2
        = true ∧
    (mainSteps { loginOk := true, hasSocketIO := true, socketFails := true }).1
        = [PStep.startHttpServer, PStep.loginAttempt true, PStep.socketSession true] :=
  socket_failure_ends_process
    { loginOk := true, hasSocketIO := true, socketFails := true } rfl rfl rfl

/-- C10: `last_update` (as reported by `GET /status`) changes only when a
full-snapshot event with a dict payload is processed: every incremental
change event — and every snapshot event with a non-dict payload — leaves it
untouched, so a bridge fed only incremental events keeps a constant
`last_update`. -/
theorem last_update_only_on_snapshot :
    (∀ (st : BridgeState) (deviceId propertyName : String) (v : Val),
        (on_state_change deviceId propertyName v st).lastUpdate = st.lastUpdate) ∧
    (∀ (st : BridgeState) (entries : List (String × Val)) (t : Int),
        (on_system_state (Val.vDict entries) t st).lastUpdate = t) ∧
    (∀ (st : BridgeState) (data : Val) (t : Int),
        (∀ entries, data ≠ Val.vDict entries) →
        (on_system_state data t st).lastUpdate = st.lastUpdate) ∧
    (∀ (st : BridgeState) (events : List Event),
        (∀ e ∈ events, ∃ d p v, e = Event.stateChange d p v) →
        (applyEvents events st).lastUpdate = st.lastUpdate) ∧
    (∀ st : BridgeState, handle_status st =
        HResp.json (Val.vDict
          [("connected", Val.vBool st.connected),
           ("device_count", Val.vNum (Int.ofNat st.devices.length)),
           ("last_update", Val.vNum st.lastUpdate)]) 200) := by
  have hsc : ∀ (st : BridgeState) (deviceId propertyName : String) (v : Val),
      (on_state_change deviceId propertyName v st).lastUpdate = st.lastUpdate := by
    intro st deviceId propertyName v
    simp only [on_state_change]
    split
    · rfl
    · rfl
  refine ⟨hsc, fun st entries t => rfl, ?_, ?_, fun st => rfl⟩
  · intro st data t h
    cases data with
    | vDict entries => exact absurd rfl (h entries)
    | vNull => rfl
    | vBool b => rfl
    | vNum n => rfl
    | vStr s => rfl
    | vList l => rfl
  · intro st events h
    induction events generalizing st with
    | nil => rfl
    | cons e rest ih =>
        obtain ⟨d, p, v, he⟩ := h e (by simp)
        subst he
        have hstep : applyEvents (Event.stateChange d p v :: rest) st =
            applyEvents rest (on_state_change d p v st) := rfl
        rw [hstep, ih (on_state_change d p v st) (fun e2 h2 => h e2 (by simp [h2])),
          hsc]

theorem last_update_only_on_snapshot_witness :
    (on_state_change "a" "on" (Val.vBool true) initState).lastUpdate = 0 ∧
    (on_system_state (Val.vDict []) 7 initState).lastUpdate = 7 ∧
    (on_system_state (Val.vStr "junk") 7 initState).lastUpdate = 0 ∧
    (applyEvents
        [Event.stateChange "a" "x" Val.vNull, Event.stateChange "b" "y" Val.vNull]
        initState).lastUpdate = 0 :=
  ⟨last_update_only_on_snapshot.1 initState "a" "on" (Val.vBool true),
   last_update_only_on_snapshot.2.1 initState [] 7,
   last_update_only_on_snapshot.2.2.1 initState (Val.vStr "junk") 7
     (fun entries h => Val.noConfusion h),
   last_update_only_on_snapshot.2.2.2.1 initState
     [Event.stateChange "a" "x" Val.vNull, Event.stateChange "b" "y" Val.vNull]
     (by intro e he
         simp at he
         rcases he with h | h
         · subst h; exact ⟨"a", "x", Val.vNull, rfl⟩
         · subst h; exact ⟨"b", "y", Val.vNull, rfl⟩)⟩

end ScryptedBridge
